import Mathlib

/-!
# Verification of the `pidj` sampler/looper against its specification

Shallow embedding of the `pidj` repository (Rust) in Lean 4.  Each Lean
definition is translated directly from the named Rust source item:

* `src/driver/adafruit/seesaw/neotrellis.rs` — key-code remapping,
* `src/driver/adafruit/seesaw/mod.rs` — bus framing (`write` / `read`),
* `src/keyboard.rs` — per-pixel animation step of the render loop,
* `src/app.rs` — `PlayState` and its methods, event dispatch, and the
  periodic loop scheduler.

Machine integers: the Rust code uses `u16`/`u8`/`usize` values that stay far
below their overflow boundary in every claim's domain (coordinates < 4, key
codes < 16, payload bytes, tick counts), so they are embedded as `Nat`;
`isize` values (loop dividers, offsets) are embedded as `Int`.  Durations
(`std::time::Duration`, exact integer nanoseconds) and `f32`/`f64` seconds
are embedded as `ℚ`; the spots where Rust float rounding could in principle
diverge from exact rational arithmetic are noted next to the definitions.
Wall-clock instants are not embedded: functions reading the clock take the
already-elapsed time (or the current tick index) as an explicit argument.
-/

namespace Pidj

/-! ## src/driver/adafruit/seesaw/neotrellis.rs -/

/-- `neotrellis_xy_to_key` — converts x and y into a neotrellis key code. -/
def neotrellis_xy_to_key (x y : Nat) : Nat :=
  y * 4 + x

/-- `neotrellis_key_to_xy` — converts a neotrellis key code into (x, y)
(source comment mislabels it; this is the code's actual computation). -/
def neotrellis_key_to_xy (k : Nat) : Nat × Nat :=
  (k / 4, k % 4)

/-- `neotrellis_key_to_seesaw` — converts a neotrellis keycode into a seesaw
key code. -/
def neotrellis_key_to_seesaw (k : Nat) : Nat :=
  k / 4 * 8 + k % 4

/-- `neotrellis_key_from_seesaw` — converts a seesaw keycode into a
neotrellis key code. -/
def neotrellis_key_from_seesaw (k : Nat) : Nat :=
  k / 8 * 4 + k % 8

/-- Spec's `xy_to_seesaw`: `neotrellis_key_to_seesaw ∘ neotrellis_xy_to_key`
(the direction used by `NeoTrellis::set_keypad_event`). -/
def xy_to_seesaw (x y : Nat) : Nat :=
  neotrellis_key_to_seesaw (neotrellis_xy_to_key x y)

/-- Spec's `seesaw_to_xy`: `neotrellis_key_to_xy ∘ neotrellis_key_from_seesaw`
(the direction used by `impl From<keypad::KeyEvent> for KeyEvent`). -/
def seesaw_to_xy (k : Nat) : Nat × Nat :=
  neotrellis_key_to_xy (neotrellis_key_from_seesaw k)

/-! ## src/driver/adafruit/seesaw/mod.rs

The I²C bus itself is abstracted as a trace of bus operations: a successful
driver call returns the exact sequence of transactions it issues (writes,
delays, reads), a failing one returns the protocol error.  Underlying bus
I/O errors (`Error::I2c`) depend on the hardware and are outside the model;
the claims under scrutiny concern the framing and sequencing only. -/

inductive SeeSawError where
  | InvalidSize
  | InvalidArgument
  deriving DecidableEq, Repr

/-- One framed exchange with the peripheral, as observed on the bus. -/
inductive BusOp where
  | busWrite (address : Nat) (data : List Nat)
  | busDelayUs (us : Nat)
  | busRead (address : Nat) (len : Nat)
  deriving DecidableEq, Repr

/-- The `SeeSaw` handle: only the device address matters to the framing. -/
structure SeeSaw where
  address : Nat
  deriving DecidableEq, Repr

def BUFFER_MAX : Nat := 32

def PAYLOAD_MAX : Nat := BUFFER_MAX - 2

/-- Rust `dst[start..start+src.len()].copy_from_slice(src)` on a list. -/
def copy_from_slice (dst : List Nat) (start : Nat) (src : List Nat) : List Nat :=
  dst.take start ++ src ++ dst.drop (start + src.length)

/-- `SeeSaw::write`: rejects payloads longer than `PAYLOAD_MAX` with
`InvalidSize` before touching the bus; otherwise builds the 32-byte frame
buffer `[base, function, payload…]` and transmits its first
`2 + payload.len()` bytes. -/
def SeeSaw.write (dev : SeeSaw) (base function : Nat) (buf : List Nat) :
    Except SeeSawError (List BusOp) :=
  if buf.length > PAYLOAD_MAX then
    .error .InvalidSize
  else
    let txBuf := ((List.replicate 32 0).set 0 base).set 1 function
    let txBuf := copy_from_slice txBuf 2 buf
    .ok [.busWrite dev.address (txBuf.take (2 + buf.length))]

/-- `SeeSaw::read`: a zero-payload write of the target register, a 14000 µs
settle delay, then the bus read into the caller's buffer (modelled by its
length). -/
def SeeSaw.read (dev : SeeSaw) (base function : Nat) (len : Nat) :
    Except SeeSawError (List BusOp) :=
  match dev.write base function [] with
  | .error e => .error e
  | .ok ops => .ok (ops ++ [.busDelayUs 14000, .busRead dev.address len])

/-! ## src/keyboard.rs -/

/-- `neopixel::Color` — 4 channels, each a `u8`. -/
structure Color where
  r : Nat
  g : Nat
  b : Nat
  w : Nat
  deriving DecidableEq, Repr

def Color.BLACK : Color := ⟨0, 0, 0, 0⟩

def Color.WHITE : Color := ⟨255, 255, 255, 255⟩

/-- `Color::from_u8` (w is fixed at 255). -/
def Color.from_u8 (r g b : Nat) : Color := ⟨r, g, b, 255⟩

/-- `keyboard::PixelState`.  Durations and progress are `ℚ` (the Rust code
stores a `Duration` and an `f64`; every concrete value appearing in the
claims is a small dyadic/decimal rational, exactly representable in `f64`,
so the rational arithmetic below coincides with the Rust arithmetic
there). -/
inductive PixelState where
  | Solid (color : Color) (update : Bool)
  | FadeLinear (fromColor toColor : Color) (duration : ℚ) (progress : ℚ)
  | FadeExp (fromColor toColor : Color) (duration : ℚ) (progress : ℚ)
  deriving DecidableEq, Repr

/-- Rust's saturating float-to-`u8` cast `x as u8`: truncation toward zero
clamped into `[0, 255]` (for x ≥ 0, truncation = floor; for x < 0 the
result saturates to 0 either way). -/
def f64_as_u8 (x : ℚ) : Nat := min 255 (Int.toNat ⌊x⌋)

/-- One interpolated channel: `(from as f64 * rp + to as f64 * p) as u8`. -/
def lerp_channel (a b : Nat) (p rp : ℚ) : Nat :=
  f64_as_u8 ((a : ℚ) * rp + (b : ℚ) * p)

def lerp_color (a b : Color) (p rp : ℚ) : Color :=
  { r := lerp_channel a.r b.r p rp
    g := lerp_channel a.g b.g p rp
    b := lerp_channel a.b b.b p rp
    w := lerp_channel a.w b.w p rp }

/-- One render-loop animation step for a single pixel
(`keyboard.rs::run`, the `match state` inside the 1/60 s render loop).
Returns the successor state and the `set_pixel_color` write issued on the
bus this frame (if any).  Note the source adds `duration.as_secs_f64()` to
`progress` each tick — the duration itself, not an elapsed-time fraction —
and neither branch reads the wall clock. -/
def step_pixel : PixelState → PixelState × Option Color
  | .Solid color update =>
      (.Solid color false, if update then some color else none)
  | .FadeLinear fromColor toColor duration progress =>
      let progress := progress + duration
      let p := progress
      let rp := 1 - p
      if p < 1 then
        (.FadeLinear fromColor toColor duration progress,
         some (lerp_color fromColor toColor p rp))
      else
        (.Solid toColor true, some toColor)
  | .FadeExp fromColor toColor duration progress =>
      let progress := progress + duration
      let p := progress * progress * progress
      let rp := 1 - p
      if p < 1 then
        (.FadeExp fromColor toColor duration progress,
         some (lerp_color fromColor toColor p rp))
      else
        (.Solid toColor true, none)

/-! ## src/driver/adafruit/seesaw/keypad.rs -/

/-- `keypad::Edge`. -/
inductive Edge where
  | High
  | Low
  | Falling
  | Rising
  deriving DecidableEq, Repr

/-- `neotrellis::KeyEvent` — a key as logical (x, y) plus an edge. -/
structure KeyEvent where
  key : Nat × Nat
  edge : Edge
  deriving DecidableEq, Repr

/-- `keyboard::Command::SetState`. -/
inductive KeyboardCommand where
  | SetState (x y : Nat) (state : PixelState)
  deriving DecidableEq, Repr

/-! ## src/util.rs

Paths (`std::path::PathBuf`) are embedded as their component lists. -/

/-- `util::path_intersection` — longest shared component prefix. -/
def path_intersection : List String → List String → List String
  | a :: l, b :: r => if a = b then a :: path_intersection l r else []
  | _, _ => []

/-! ## src/audio.rs / src/app.rs data model -/

/-- Modelled from the spec: `audio::SoundInfo` — the catalog entry type
`{id, path, duration}` (§3 "sound catalog (ordered list of {id, path,
duration})").  The version of `src/audio.rs` in the tree predates the
catalog; `app.rs` is its consumer.  `id` (`SoundId`) is the index into the
catalog, duration in seconds. -/
structure SoundInfo where
  id : Nat
  path : List String
  duration : ℚ
  deriving DecidableEq, Repr

/-- Modelled from the spec: `audio::Command::Play{sound_id}` (§6), as sent
by `app.rs`. -/
inductive AudioCommand where
  | Play (sound_id : Nat)
  deriving DecidableEq, Repr

/-- Modelled from the spec: `audio::Event::LoadingStart` /
`LoadingEnd{catalog}` (§6), as consumed by `app.rs::process_audio_event`. -/
inductive AudioEvent where
  | LoadingStart
  | LoadingEnd (sounds : List SoundInfo)
  deriving DecidableEq, Repr

/-- `app::FnKeyState`. -/
structure FnKeyState where
  pressed : Bool := false
  deriving DecidableEq, Repr

/-- `app::SoundKeyState`. -/
structure SoundKeyState where
  binding : Option Nat := none
  pressed : Bool := false
  deriving DecidableEq, Repr

/-- `app::LoopState`. -/
structure LoopState where
  /-- offset from the start of the cycle in ticks -/
  offset : Int
  /-- period in ticks -/
  period : Nat
  sound : Nat
  deriving DecidableEq, Repr

/-- `app::ReassignState`. -/
structure ReassignState where
  key : Nat × Nat
  base_dir : List String
  current_dir : List String
  sounds_in_dir : List Nat
  subdirs_in_dir : List String
  selection : Option Nat
  deriving DecidableEq, Repr

/-- `app::PlayState`.  `beginning : Instant` (the wall-clock start of the
sequence) is not embedded; every function that derives the current tick
from it (`loop_time`) takes the elapsed time or the tick index as an
explicit argument.  `tick : Duration` is embedded as exact seconds in ℚ. -/
structure PlayState where
  sounds : List SoundInfo
  /-- 3 rows, 4 columns, b/c top row is reserved for fn keys -/
  sound_keys : List (List SoundKeyState)
  fn_keys : List FnKeyState
  reassign : Option ReassignState
  quantize : Bool
  /-- `None` means the looper is not active; negative values are loop
  multipliers. -/
  loop_divider : Option Int
  loops : List LoopState
  /-- how long is one tick? controls bpm -/
  tick : ℚ
  deriving DecidableEq, Repr

/-- `app::LoadingStage`. -/
inductive LoadingStage where
  | DiscoveringAudio
  | BufferingAudio (progress num_files : Nat)
  deriving DecidableEq, Repr

/-- `app::AppState` (the `LoadingState.animation_cancel` token is runtime
machinery with no bearing on any claim). -/
inductive AppState where
  | Loading (stage : LoadingStage)
  | Play (state : PlayState)
  deriving DecidableEq, Repr

/-! ## src/app.rs — `ReassignState` methods -/

/-- `Path::parent()` on a component list: `None` for the empty path,
otherwise the path with its last component removed. -/
def pathParent : List String → Option (List String)
  | [] => none
  | l => some l.dropLast

/-- `Path::strip_prefix`: the remaining components when `pre` is a
component prefix of `p`. -/
def pathRemainder : List String → List String → Option (List String)
  | p, [] => some p
  | [], _ :: _ => none
  | a :: p, b :: pre => if a = b then pathRemainder p pre else none

/-- Lexicographic order on component lists, mirroring `PathBuf`'s `Ord`
(component-wise comparison); used as the `sort_by_key` key order. -/
def pathLe : List String → List String → Bool
  | [], _ => true
  | _ :: _, [] => false
  | a :: l, b :: r => if a = b then pathLe l r else decide (a < b)

/-- `self.sounds[id.0].path` — catalog lookup by sound id. -/
def soundPath (sounds : List SoundInfo) (id : Nat) : List String :=
  (sounds.getD id ⟨0, [], 0⟩).path

/-- Ordered insertion into a `BTreeSet<OsString>` viewed as a sorted
duplicate-free list. -/
def btreeInsert (x : String) : List String → List String
  | [] => [x]
  | a :: l =>
      if x = a then a :: l
      else if decide (x < a) then x :: a :: l
      else a :: btreeInsert x l

def btreeOfList (l : List String) : List String :=
  l.foldl (fun acc s => btreeInsert s acc) []

/-- `ReassignState::update` — recompute `sounds_in_dir` (catalog entries
whose parent is the current directory, sorted by path) and
`subdirs_in_dir` (first path segment of entries nested strictly deeper,
deduplicated into a sorted set). -/
def ReassignState.update (rs : ReassignState) (sounds : List SoundInfo) :
    ReassignState :=
  let sounds_in_dir := sounds.filterMap fun s =>
    match pathParent s.path with
    | some parent => if parent = rs.current_dir then some s.id else none
    | none => none
  let sounds_in_dir :=
    sounds_in_dir.mergeSort fun a b => pathLe (soundPath sounds a) (soundPath sounds b)
  let subdirs_in_dir := btreeOfList <| sounds.filterMap fun s =>
    match pathRemainder s.path rs.current_dir with
    | some partialDir =>
        if partialDir.length > 1 then partialDir.head? else none
    | none => none
  { rs with sounds_in_dir, subdirs_in_dir }

/-- `ReassignState::up_dir` — pop one component, only while strictly below
the base directory. -/
def ReassignState.up_dir (rs : ReassignState) (sounds : List SoundInfo) :
    ReassignState :=
  if rs.base_dir.isPrefixOf rs.current_dir && rs.current_dir ≠ rs.base_dir then
    ReassignState.update { rs with current_dir := rs.current_dir.dropLast } sounds
  else rs

/-! ## src/app.rs — `PlayState` methods -/

/-- Rust `vec[i] = f(vec[i])`-style in-place update on a list (out-of-range
indices are never produced by the callers modelled here; the theorems carry
the corresponding bounds). -/
def listModify (f : α → α) : Nat → List α → List α
  | _, [] => []
  | 0, a :: l => f a :: l
  | n + 1, a :: l => a :: listModify f n l

/-- `PlayState::reassign_sound_begin` — base directory is the fold of
`path_intersection` over the whole catalog; the new `ReassignState` starts
at the base directory and is populated by `update`. -/
def PlayState.reassign_sound_begin (s : PlayState) (key : Nat × Nat) :
    PlayState :=
  let base_dir :=
    ((s.sounds.map (·.path)).foldl
      (fun acc next =>
        some (match acc with
              | some acc => path_intersection acc next
              | none => next))
      none).getD []
  let state : ReassignState :=
    { key, current_dir := base_dir, base_dir
      sounds_in_dir := [], subdirs_in_dir := [], selection := none }
  { s with reassign := some (state.update s.sounds) }

/-- `PlayState::reassign_sound_quit`. -/
def PlayState.reassign_sound_quit (s : PlayState) : PlayState :=
  { s with reassign := none }

/-- `PlayState::reassign_sound_save` — writes the current selection into
the target key's binding, then quits reassignment. -/
def PlayState.reassign_sound_save (s : PlayState) : PlayState :=
  match s.reassign with
  | some reassign =>
      let (x, y) := reassign.key
      let s := { s with
        sound_keys :=
          listModify (listModify (fun k => { k with binding := reassign.selection }) x)
            (y - 1) s.sound_keys }
      s.reassign_sound_quit
  | none => s

/-- `PlayState::reassign_sound_up`. -/
def PlayState.reassign_sound_up (s : PlayState) : PlayState :=
  match s.reassign with
  | some reassign => { s with reassign := some (reassign.up_dir s.sounds) }
  | none => s

/-- `PlayState::loop_time` — current looper time in ticks:
`(elapsed_secs / tick_secs) as usize` for the elapsed wall time since
`beginning` (passed explicitly; nonnegative). -/
def PlayState.loop_time (s : PlayState) (elapsed : ℚ) : Nat :=
  (⌊elapsed / s.tick⌋).toNat

/-- `self.sounds[sound.0].duration`. -/
def soundDuration (s : PlayState) (sound : Nat) : ℚ :=
  (s.sounds.getD sound ⟨0, [], 0⟩).duration

/-- `PlayState::add_to_loops`.  `now` is the value of `self.loop_time()`
at the moment of the call.  The three period branches are computed on
`isize` and cast `as usize`; all are nonnegative here, so `Int.toNat` is
that cast.  The `60 / loop_divider` is Rust `isize` division with both
operands positive, where every integer-division convention agrees.
Note: when the computed period is 0 (divider 0 and a sound shorter than
one tick) and quantize is on, the source's `offset % period` panics;
Lean's `% 0` returns the left operand instead, so theorems about the
quantize path assume a nonzero period. -/
def PlayState.add_to_loops (s : PlayState) (now : Nat) (sound : Nat) :
    PlayState :=
  match s.loop_divider with
  | none => s
  | some loop_divider =>
      let period : Nat :=
        (if loop_divider < 0 then 60 * (-loop_divider)
         else if loop_divider = 0 then ⌊soundDuration s sound / s.tick⌋
         else 60 / loop_divider).toNat
      let offset := now
      let offset := if s.quantize then offset - offset % period else offset
      let ls : LoopState := { offset := (offset : Int), period, sound }
      { s with loops := s.loops ++ [ls] }

/-- `PlayState::bpm_up` — `bpm = floor(1 / tick)`, then
`tick = 1 / (bpm + 1.5)`. -/
def PlayState.bpm_up (s : PlayState) : PlayState :=
  let bpm : ℚ := ⌊1 / s.tick⌋
  { s with tick := 1 / (bpm + 3 / 2) }

/-- `PlayState::bpm_down` — `bpm = floor(1 / tick)`, then
`tick = 1 / (bpm - 0.5)`. -/
def PlayState.bpm_down (s : PlayState) : PlayState :=
  let bpm : ℚ := ⌊1 / s.tick⌋
  { s with tick := 1 / (bpm - 1 / 2) }

/-- `PlayState::clear_loops` — guarded on an active loop divider: when
`loop_divider` is `None` this is a no-op. -/
def PlayState.clear_loops (s : PlayState) : PlayState :=
  match s.loop_divider with
  | some _ => { s with loops := [], loop_divider := none }
  | none => s

/-- The divider ring of `PlayState::cycle_loop_mode`.  The source's final
match arm is `unreachable!()` (a panic); it is never hit from any divider
value the program itself produces (see the C4 reachability theorem), and
this embedding leaves the divider unchanged there. -/
def cycle_divider (ld : Option Int) : Option Int :=
  match ld with
  | none => some (-8)
  | some n =>
      if n = -8 then some (-6)
      else if n = -6 then some (-4)
      else if n = -4 then some (-3)
      else if n = -3 then some (-2)
      else if n = -2 then some 0
      else if n = 0 then some 1
      else if n = 1 then some 2
      else if n = 2 then some 3
      else if n = 3 then some 4
      else if n = 4 then some 5
      else if n = 5 then some 6
      else if n = 6 then none
      else ld

/-- `PlayState::cycle_loop_mode`. -/
def PlayState.cycle_loop_mode (s : PlayState) : PlayState :=
  { s with loop_divider := cycle_divider s.loop_divider }

/-- `PlayState::cycle_quantize`. -/
def PlayState.cycle_quantize (s : PlayState) : PlayState :=
  { s with quantize := !s.quantize }

/-! ## src/app.rs — event processing and the loop scheduler -/

/-- `app::set_solid_color` — a `SetState` command with
`PixelState::Solid { color, update: true }`. -/
def set_solid_color (x y : Nat) (color : Color) : KeyboardCommand :=
  .SetState x y (.Solid color true)

/-- One evaluation of the `process_loops` scheduler body (`app.rs`), at the
current tick index `now = state.loop_time()`.  Returns the `Play` commands
sent for due loop entries and the F4 LED commands.  The body runs only in
`Play` with no reassignment active; every other state is skipped whole.
`(now - offset).rem_euclid(period)` is `Int.emod`; the source panics when a
stored period is 0 (Lean's `emod 0` returns the dividend), which only
arises from the degenerate entries exhibited for claim C3. -/
def process_loops_step (state : AppState) (now : Nat) :
    List AudioCommand × List KeyboardCommand :=
  match state with
  | .Play state =>
      if state.reassign.isNone then
        let fired :=
          (state.loops.filter fun l =>
            ((now : Int) - l.offset).emod (l.period : Int) = 0).map
            fun l => AudioCommand.Play l.sound
        let leds :=
          match state.loop_divider with
          | some ld =>
              if ld ≠ 0 then
                let ld_period := (if ld > 0 then 60 / ld else 60 * (-ld)).toNat
                if now % ld_period = 0 then
                  [set_solid_color 3 0 Color.WHITE]
                else if now % ld_period = ld_period / 2 then
                  [set_solid_color 3 0 Color.BLACK]
                else []
              else []
          | none =>
              if now % 30 = 0 then [set_solid_color 3 0 Color.BLACK] else []
        (fired, leds)
      else ([], [])
  | .Loading _ => ([], [])

/-- The pressed flag derived from an edge
(`Edge::High | Edge::Rising => true`). -/
def edgePressed : Edge → Bool
  | .High | .Rising => true
  | .Low | .Falling => false

/-- `s.fn_keys[i].pressed` (callers keep `i < 4`). -/
def fnPressed (s : PlayState) (i : Nat) : Bool :=
  (s.fn_keys.getD i {}).pressed

/-- `s.sound_keys[y - 1][x]` (callers keep `1 ≤ y ≤ 3`, `x < 4`). -/
def soundKeyAt (s : PlayState) (x y : Nat) : SoundKeyState :=
  (s.sound_keys.getD (y - 1) []).getD x {}

/-- `app::process_keyboard_event`, state transition plus the audio
commands it sends.  `now` is `state.loop_time()` at the instant of the
event (consumed only on the add-to-loops path).  The LED feedback recompute
(`update_keyboard_freeplay`) only emits keyboard commands and never touches
the state; it is not part of any claim under scrutiny and is left out of
the return value.  The `_ => unreachable!()` arms for `x > 3` cannot fire:
`NeoTrellis::get_keypad_events` discards keys outside the 4×4 grid. -/
def process_keyboard_event (state : AppState) (event : KeyEvent) (now : Nat) :
    AppState × List AudioCommand :=
  match state with
  | .Loading _ => (state, [])
  | .Play state =>
      let (x, y) := event.key
      let pressed := edgePressed event.edge
      let state :=
        if y = 0 then
          { state with
            fn_keys := listModify (fun k => { k with pressed }) x state.fn_keys }
        else
          { state with
            sound_keys :=
              listModify (listModify (fun k => { k with pressed }) x) (y - 1)
                state.sound_keys }
      if state.reassign.isSome then
        if pressed ∧ y = 0 then
          match x with
          | 0 => (.Play state.reassign_sound_quit, [])
          | 1 => (.Play state.reassign_sound_up, [])
          | 2 => (.Play state, [])
          | 3 => (.Play state.reassign_sound_save, [])
          | _ => (.Play state, [])
        else (.Play state, [])
      else
        if pressed then
          if y > 0 then
            if fnPressed state 0 then
              (.Play (state.reassign_sound_begin (x, y)), [])
            else
              match (soundKeyAt state x y).binding with
              | some id =>
                  let state :=
                    if state.loop_divider.isSome then state.add_to_loops now id
                    else state
                  (.Play state, [.Play id])
              | none => (.Play state, [])
          else
            match x with
            | 0 => (.Play state, [])
            | 1 => (.Play state.cycle_quantize, [])
            | 2 =>
                if fnPressed state 0 then (.Play state.bpm_down, [])
                else (.Play state.clear_loops, [])
            | 3 =>
                if fnPressed state 0 then (.Play state.bpm_up, [])
                else (.Play state.cycle_loop_mode, [])
            | _ => (.Play state, [])
        else (.Play state, [])

/-- `app::process_audio_event` — on `LoadingEnd` the state unconditionally
becomes `Play` with the delivered catalog and the literal initial values of
the source (`tick` is `Duration::from_micros(1_000_000 / 60)`: integer
division, i.e. 16666 whole microseconds); every other event leaves the
state unchanged. -/
def process_audio_event (state : AppState) (event : AudioEvent) : AppState :=
  match event with
  | .LoadingEnd sounds =>
      .Play
        { sounds
          sound_keys := List.replicate 3 (List.replicate 4 {})
          fn_keys := List.replicate 4 {}
          reassign := none
          loop_divider := none
          quantize := true
          loops := []
          tick := ((1000000 / 60 : Nat) : ℚ) / 1000000 }
  | _ => state

/-! ## Spec-side formulas and concrete fixtures

`spec_loop_period` / `spec_loop_offset` restate §4.3's add-to-loop formulas
in the spec's own terms (`60×|divider|`, `duration / tick`, `60 / divider`,
quantize rounding); the refinement theorems compare them against
`PlayState.add_to_loops` as translated from the source. -/

/-- The spec's period formula: negative dividers are bar multipliers
(`60 × |d|` ticks), zero uses the sound's own duration in ticks, positive
dividers are beat divisors (`60 / d` ticks). -/
def spec_loop_period (s : PlayState) (sound : Nat) (d : Int) : Nat :=
  if d < 0 then 60 * d.natAbs
  else if d = 0 then (⌊soundDuration s sound / s.tick⌋).toNat
  else (60 / d).toNat

/-- The spec's offset formula: the current tick index, rounded down to the
nearest period boundary when quantize is enabled. -/
def spec_loop_offset (s : PlayState) (now period : Nat) : Nat :=
  if s.quantize then now - now % period else now

/-- A small concrete catalog: sound 0 lasts 2 s, sound 1 lasts 10 ms. -/
def exampleSounds : List SoundInfo :=
  [⟨0, ["audio", "kick.wav"], 2⟩, ⟨1, ["audio", "blip.wav"], 1 / 100⟩]

/-- A concrete `Play` state at 60 BPM (tick 1/60 s), fresh bindings. -/
def examplePlay : PlayState :=
  { sounds := exampleSounds
    sound_keys := List.replicate 3 (List.replicate 4 {})
    fn_keys := List.replicate 4 {}
    reassign := none
    quantize := true
    loop_divider := none
    loops := []
    tick := 1 / 60 }

/-- A concrete reassignment sub-state targeting key (1, 1). -/
def exampleReassign : ReassignState :=
  { key := (1, 1), base_dir := ["audio"], current_dir := ["audio"]
    sounds_in_dir := [0, 1], subdirs_in_dir := [], selection := none }

/-- The tick duration of an `AppState` (0 while loading). -/
def appTick : AppState → ℚ
  | .Play p => p.tick
  | .Loading _ => 0

/-- A concrete Play state in reassignment: target key (2, 1) — currently
bound to sound 7 — with no sound selected. -/
def exampleReassignPlay : PlayState :=
  { examplePlay with
    reassign := some { exampleReassign with key := (2, 1) }
    sound_keys :=
      [[{}, {}, { binding := some 7 }, {}], List.replicate 4 {},
       List.replicate 4 {}] }

end Pidj

open Pidj

/-- C1 (counterexample): at the grid position (x, y) = (1, 0) the
seesaw-and-back roundtrip returns (0, 1), not (1, 0), refuting
`seesaw_to_xy(xy_to_seesaw(x,y)) == (x,y)`. -/
theorem c1_roundtrip_counterexample :
    seesaw_to_xy (xy_to_seesaw 1 0) = (0, 1) ∧ (0, 1) ≠ (1, 0) := by
  decide

/-- C1 (amended): for every logical coordinate (x, y) with x, y < 4, the
roundtrip through the seesaw key code returns the transposed coordinate
(y, x) — `neotrellis_key_to_xy` returns components in (row, column) order
while `neotrellis_xy_to_key` consumes them in (column, row) order — and the
remapping `xy_to_seesaw` is injective over the 16 grid positions, hence a
bijection onto its image. -/
theorem c1_roundtrip_transposed_and_bijective :
    ∀ x y x' y' : Fin 4,
      seesaw_to_xy (xy_to_seesaw x y) = ((y : Nat), (x : Nat)) ∧
      (xy_to_seesaw x y = xy_to_seesaw x' y' → x = x' ∧ y = y') := by
  decide

/-- C1 (witness): the amended theorem evaluated at (x, y) = (1, 2),
discharging the injectivity hypothesis at equal inputs. -/
theorem c1_witness :
    seesaw_to_xy (xy_to_seesaw (1 : Fin 4) (2 : Fin 4)) = (2, 1) ∧
    ((1 : Fin 4) = 1 ∧ (2 : Fin 4) = 2) :=
  ⟨(c1_roundtrip_transposed_and_bijective 1 2 1 2).1,
   (c1_roundtrip_transposed_and_bijective 1 2 1 2).2 rfl⟩

/-- Helper: taking a 2-byte header plus the payload back off any longer
buffer recovers exactly header ++ payload. -/
theorem take_header (a b : Nat) (buf rest : List Nat) :
    (([a, b] ++ buf) ++ rest).take (2 + buf.length) = [a, b] ++ buf := by
  have h : 2 + buf.length = ([a, b] ++ buf).length := by
    simp only [List.length_append, List.length_cons, List.length_nil]
  rw [h, List.take_left]

/-- Helper: the transmitted frame of a within-bounds `SeeSaw::write` is
exactly header ++ payload. -/
theorem seesaw_frame_eq (base function : Nat) (buf : List Nat) :
    (copy_from_slice (((List.replicate 32 0).set 0 base).set 1 function) 2 buf).take
        (2 + buf.length) =
      [base, function] ++ buf := by
  have h32 : ((List.replicate 32 (0 : Nat)).set 0 base).set 1 function
      = [base, function] ++ List.replicate 30 0 := rfl
  have h2 : ([base, function] ++ List.replicate 30 (0 : Nat)).take 2
      = [base, function] := rfl
  simp only [copy_from_slice, h32, h2]
  exact take_header base function buf _

/-- Helper: a within-bounds `SeeSaw::write` succeeds with the single framed
bus transaction. -/
theorem seesaw_write_ok (dev : SeeSaw) (base function : Nat) (buf : List Nat)
    (h : buf.length ≤ 30) :
    dev.write base function buf =
      .ok [.busWrite dev.address ([base, function] ++ buf)] := by
  simp only [SeeSaw.write]
  rw [if_neg (by simp only [PAYLOAD_MAX, BUFFER_MAX]; omega)]
  rw [seesaw_frame_eq]

/-- C8: `SeeSaw::write` rejects payloads longer than 30 bytes with
`InvalidSize` and no bus transaction; within bounds it transmits exactly the
2-byte header `(base, function)` followed by the payload.  `SeeSaw::read`
issues the zero-payload register write, then the settle delay, then the bus
read. -/
theorem c8_write_read_framing (dev : SeeSaw) (base function : Nat)
    (buf : List Nat) (len : Nat) :
    (buf.length > 30 → dev.write base function buf = .error .InvalidSize) ∧
    (buf.length ≤ 30 →
      dev.write base function buf =
        .ok [.busWrite dev.address ([base, function] ++ buf)]) ∧
    dev.read base function len =
      .ok [.busWrite dev.address [base, function], .busDelayUs 14000,
           .busRead dev.address len] := by
  refine ⟨fun h => ?_, fun h => ?_, ?_⟩
  · simp only [SeeSaw.write]
    rw [if_pos (by simp only [PAYLOAD_MAX, BUFFER_MAX]; omega)]
  · exact seesaw_write_ok dev base function buf h
  · simp only [SeeSaw.read, seesaw_write_ok dev base function [] (by simp)]
    simp

/-- C8 (witness): the framing theorem evaluated on a concrete oversized
payload, a concrete 2-byte pixel payload, and a concrete 1-byte read. -/
theorem c8_witness :
    SeeSaw.write ⟨46⟩ 14 4 (List.replicate 31 9) = .error .InvalidSize ∧
    SeeSaw.write ⟨46⟩ 14 4 [0, 3] = .ok [.busWrite 46 [14, 4, 0, 3]] ∧
    SeeSaw.read ⟨46⟩ 16 4 1 =
      .ok [.busWrite 46 [16, 4], .busDelayUs 14000, .busRead 46 1] :=
  ⟨(c8_write_read_framing ⟨46⟩ 14 4 (List.replicate 31 9) 1).1 (by decide),
   (c8_write_read_framing ⟨46⟩ 14 4 [0, 3] 1).2.1 (by decide),
   (c8_write_read_framing ⟨46⟩ 16 4 [] 1).2.2⟩

/-- C2: evaluating the render-loop animation step on the claim's failing
input — a `FadeLinear` from black to white with duration 1 s and progress
0 — shows the code adds the duration itself (1.0) to `progress`, so the
fade completes on the very first render tick (≈1/60 s of wall time, not
0.5 s showing mid-gray, not ≥1 s to finish) and the state is replaced by
`Solid(white)` with the update flag `true`, not `false`. -/
theorem c2_fade_linear_first_tick :
    step_pixel (.FadeLinear Color.BLACK Color.WHITE 1 0) =
      (.Solid Color.WHITE true, some Color.WHITE) ∧
    step_pixel (.FadeExp Color.BLACK Color.WHITE 1 0) =
      (.Solid Color.WHITE true, none) := by
  constructor <;> simp [step_pixel, Color.BLACK, Color.WHITE]

/-- Helper: the set of divider values reachable by cycling. -/
def dividerRing : List (Option Int) :=
  [none, some (-8), some (-6), some (-4), some (-3), some (-2), some 0,
   some 1, some 2, some 3, some 4, some 5, some 6]

/-- Helper: one cycle step stays inside the divider ring. -/
theorem cycle_divider_mem_step :
    ∀ s ∈ dividerRing, cycle_divider s ∈ dividerRing := by
  decide

/-- C4: starting from `loop_divider = None`, the 13 successive applications
of `cycle_loop_mode`'s divider step visit exactly
-8, -6, -4, -3, -2, 0, 1, 2, 3, 4, 5, 6 in that order and return to `None`
on the 13th, and no divider value outside this ring is ever reachable by
cycling. -/
theorem c4_divider_cycle :
    (((List.range 13).map fun n => cycle_divider^[n + 1] none) =
      [some (-8), some (-6), some (-4), some (-3), some (-2), some 0,
       some 1, some 2, some 3, some 4, some 5, some 6, none]) ∧
    ∀ n : Nat, cycle_divider^[n] none ∈ dividerRing := by
  refine ⟨by decide, fun n => ?_⟩
  induction n with
  | zero => decide
  | succ n ih =>
      rw [Function.iterate_succ_apply']
      exact cycle_divider_mem_step _ ih

/-- C3 (counterexample): with an active divider 0, quantize off, tick 1/60 s
and a 10 ms sound (shorter than one tick), `add_to_loops` appends a
`LoopState` whose period is 0 — refuting "the period stored in the appended
LoopState is greater than 0" for arbitrary sound durations.  (The scheduler
then hits `rem_euclid(0)`, a panic, on its next evaluation.) -/
theorem c3_counterexample :
    (({ examplePlay with loop_divider := some 0, quantize := false }
        : PlayState).add_to_loops 0 1).loops =
      [{ offset := 0, period := 0, sound := 1 }] := by
  simp only [PlayState.add_to_loops, soundDuration, examplePlay, exampleSounds]
  norm_num

/-- C3 (amended): every `LoopState` appended by `add_to_loops` has a
strictly positive period provided the active divider is negative, or
positive and at most 60 (all dividers reachable by cycling satisfy this),
or zero with a sound lasting at least one tick; with divider 0 and a sound
shorter than one tick the stored period is 0 (see the counterexample). -/
theorem c3_period_positive (s : PlayState) (now sound : Nat) (d : Int)
    (hd : s.loop_divider = some d)
    (hcase : d < 0 ∨ (0 < d ∧ d ≤ 60) ∨
      (d = 0 ∧ 0 < s.tick ∧ s.tick ≤ soundDuration s sound))
    (hprev : ∀ l ∈ s.loops, 0 < l.period) :
    ∀ l ∈ (s.add_to_loops now sound).loops, 0 < l.period := by
  intro l hl
  rw [PlayState.add_to_loops, hd] at hl
  simp only [List.mem_append, List.mem_singleton] at hl
  rcases hl with hl | hl
  · exact hprev l hl
  · subst hl
    simp only []
    rcases hcase with hneg | ⟨hpos, hle⟩ | ⟨hzero, htick, hdur⟩
    · rw [if_pos hneg]
      omega
    · rw [if_neg (by omega), if_neg (by omega)]
      have h1 : (1 : Int) ≤ 60 / d := by
        rw [Int.le_ediv_iff_mul_le hpos]
        omega
      omega
    · subst hzero
      rw [if_neg (by omega), if_pos rfl]
      have h1 : (1 : Int) ≤ ⌊soundDuration s sound / s.tick⌋ := by
        rw [Int.le_floor]
        push_cast
        rw [one_le_div htick]
        exact hdur
      omega

/-- C3 (witness): the amended theorem applied at divider 1 on the concrete
60 BPM state; the single appended entry (offset 0, period 60, sound 0) has
a positive period. -/
theorem c3_witness : 0 < (LoopState.mk 0 60 0).period := by
  have hloops : (({ examplePlay with loop_divider := some 1 }
      : PlayState).add_to_loops 0 0).loops =
        [{ offset := 0, period := 60, sound := 0 }] := by
    simp [PlayState.add_to_loops, examplePlay]
  exact c3_period_positive { examplePlay with loop_divider := some 1 } 0 0 1
    rfl (Or.inr (Or.inl (by norm_num)))
    (by simp [examplePlay])
    { offset := 0, period := 60, sound := 0 }
    (by rw [hloops]; exact List.mem_singleton.mpr rfl)

/-- C5: with an active divider d, `add_to_loops` appends exactly
`{offset, period, sound}` with the spec's period formula (`60×|d|` for
d < 0, the sound's duration in ticks for d = 0, `60/d` for d > 0) and the
spec's offset (the current tick index, rounded down to a period boundary
when quantize is on); and the spec's three concrete derivations hold on the
60 BPM state: divider 1 ⇒ 60 ticks, divider −2 ⇒ 120 ticks, divider 0 with
a 2 s sound ⇒ 120 ticks.  The hypothesis keeps the quantize path away from
the zero-period corner where the source's `%` panics (claim C3). -/
theorem c5_add_to_loops_refines_spec (s : PlayState) (now sound : Nat)
    (d : Int) (hd : s.loop_divider = some d)
    (hq : s.quantize = true → 0 < spec_loop_period s sound d) :
    ((s.add_to_loops now sound).loops =
      s.loops ++
        [{ offset := (spec_loop_offset s now (spec_loop_period s sound d) : Int)
           period := spec_loop_period s sound d
           sound := sound }]) ∧
    spec_loop_period examplePlay 0 1 = 60 ∧
    spec_loop_period examplePlay 0 (-2) = 120 ∧
    spec_loop_period examplePlay 0 0 = 120 := by
  refine ⟨?_, ?_, ?_, ?_⟩
  · rw [PlayState.add_to_loops, hd]
    have hper : (if d < 0 then 60 * (-d)
         else if d = 0 then ⌊soundDuration s sound / s.tick⌋
         else 60 / d).toNat = spec_loop_period s sound d := by
      rw [spec_loop_period]
      rcases lt_trichotomy d 0 with h | h | h
      · rw [if_pos h, if_pos h]
        omega
      · subst h
        norm_num
      · rw [if_neg (by omega), if_neg (by omega), if_neg (by omega),
          if_neg (by omega)]
    simp only [hper, spec_loop_offset]
  · norm_num [spec_loop_period]
    decide
  · norm_num [spec_loop_period]
  · norm_num [spec_loop_period, soundDuration, examplePlay, exampleSounds]
    decide

/-- C5 (witness): the refinement theorem applied on the concrete 60 BPM
state with divider 1 at tick index 61: quantize rounds the offset down to
60 and the period is 60 ticks. -/
theorem c5_witness :
    (({ examplePlay with loop_divider := some 1 } : PlayState).add_to_loops
        61 0).loops =
      [{ offset := 60, period := 60, sound := 0 }] := by
  have h := (c5_add_to_loops_refines_spec
    { examplePlay with loop_divider := some 1 } 61 0 1 rfl
    (fun _ => by norm_num [spec_loop_period])).1
  rw [h]
  norm_num [spec_loop_period, spec_loop_offset, examplePlay]
  decide

/-- C6: one scheduler evaluation in Play state issues a loop entry's sound
exactly when `(now − offset).rem_euclid(period) == 0`: the entry with
offset 0 and period 30 fires precisely at the ticks divisible by 30; and
while reassignment is active the entire evaluation — loop firing and the
F4 LED update alike — is skipped. -/
theorem c6_scheduler (s : PlayState) (now snd : Nat) :
    (s.reassign = none →
      s.loops = [{ offset := 0, period := 30, sound := snd }] →
      (process_loops_step (.Play s) now).1 =
        if now % 30 = 0 then [AudioCommand.Play snd] else []) ∧
    (s.reassign.isSome = true → process_loops_step (.Play s) now = ([], [])) := by
  constructor
  · intro h1 h2
    have hemod : ∀ a b : Int, a.emod b = a % b := fun _ _ => rfl
    have hiff : (((now : Int) - (0 : Int)).emod ((30 : Nat) : Int) = 0) ↔
        now % 30 = 0 := by
      rw [hemod]
      omega
    simp only [process_loops_step, h1, h2, Option.isNone_none, if_true]
    by_cases h : now % 30 = 0
    · rw [if_pos h]
      simp only [List.filter_cons, List.filter_nil, decide_eq_true_eq]
      rw [if_pos (by rw [hemod]; omega)]
      simp
    · rw [if_neg h]
      simp only [List.filter_cons, List.filter_nil, decide_eq_true_eq]
      rw [if_neg (by rw [hemod]; omega)]
      simp
  · intro h
    have h1 : s.reassign.isNone = false := by
      simp [Option.isNone_iff_eq_none]
      exact Option.isSome_iff_exists.mp h |>.elim fun a ha => by simp [ha]
    simp [process_loops_step, h1]

/-- C6 (witness): the scheduler theorem applied at tick 60 on the concrete
state holding the (offset 0, period 30) entry — the entry fires — and on
the same state with reassignment active — nothing is issued. -/
theorem c6_witness :
    (process_loops_step
      (.Play { examplePlay with loops := [{ offset := 0, period := 30, sound := 7 }] })
      60).1 = [AudioCommand.Play 7] ∧
    process_loops_step
      (.Play { examplePlay with
                loops := [{ offset := 0, period := 30, sound := 7 }]
                reassign := some exampleReassign })
      60 = ([], []) := by
  constructor
  · have h := (c6_scheduler
      { examplePlay with loops := [{ offset := 0, period := 30, sound := 7 }] }
      60 7).1 (by simp [examplePlay]) (by simp)
    rw [h]
    norm_num
  · exact (c6_scheduler
      { examplePlay with
        loops := [{ offset := 0, period := 30, sound := 7 }]
        reassign := some exampleReassign }
      60 7).2 (by simp [examplePlay])

/-- Helper: `listModify` at one index leaves every other index unchanged. -/
theorem listModify_getD_ne (f : α → α) (n m : Nat) (l : List α) (d : α)
    (h : n ≠ m) : (listModify f n l).getD m d = l.getD m d := by
  induction l generalizing n m with
  | nil => cases n <;> rfl
  | cons a l ih =>
      match n, m with
      | 0, 0 => exact absurd rfl h
      | 0, m + 1 => rfl
      | n + 1, 0 => rfl
      | n + 1, m + 1 =>
          simp only [listModify, List.getD_cons_succ]
          exact ih n m (by omega)

/-- C7 (counterexample): in a Play state whose loop divider has already
returned to `None` (reachable by cycling past 6) while a loop entry is
still present, pressing function key x=2 with FnKey[0] not held leaves the
loops list untouched — `clear_loops` is a no-op without an active divider —
refuting "leaves the state with an empty loops list". -/
theorem c7_counterexample :
    process_keyboard_event
        (.Play { examplePlay with loops := [{ offset := 0, period := 30, sound := 0 }] })
        { key := (2, 0), edge := .Rising } 0 =
      (.Play { examplePlay with
        loops := [{ offset := 0, period := 30, sound := 0 }]
        fn_keys := listModify (fun k => { k with pressed := true }) 2
          examplePlay.fn_keys }, []) ∧
    ({ examplePlay with
        loops := [{ offset := 0, period := 30, sound := 0 }]
        fn_keys := listModify (fun k => { k with pressed := true }) 2
          examplePlay.fn_keys } : PlayState).loops ≠ [] := by
  constructor
  · rfl
  · simp

/-- C7 (amended): the clear-loops action (function-row key x=2 pressed
while FnKey[0] is not held) empties the loops list and resets the divider
to `None` whenever a loop divider is currently active; when the divider is
already `None` the action leaves the loops list unchanged. -/
theorem c7_clear_loops_guarded (sounds : List SoundInfo)
    (sound_keys : List (List SoundKeyState)) (fn_keys : List FnKeyState)
    (q : Bool) (loops : List LoopState) (tick : ℚ) (now : Nat) (d : Int)
    (h2 : (fn_keys.getD 0 {}).pressed = false) :
    process_keyboard_event
        (.Play { sounds, sound_keys, fn_keys, reassign := none, quantize := q,
                 loop_divider := some d, loops, tick })
        { key := (2, 0), edge := .Rising } now =
      (.Play { sounds, sound_keys,
               fn_keys := listModify (fun k => { k with pressed := true }) 2 fn_keys,
               reassign := none, quantize := q, loop_divider := none,
               loops := [], tick }, []) := by
  have hfn : fnPressed
      { sounds, sound_keys,
        fn_keys := listModify (fun k => { k with pressed := true }) 2 fn_keys,
        reassign := none, quantize := q, loop_divider := some d, loops, tick }
      0 = false := by
    rw [fnPressed]
    show ((listModify (fun k => { k with pressed := true }) 2 fn_keys).getD 0 {}).pressed = false
    rw [listModify_getD_ne _ _ _ _ _ (by decide)]
    exact h2
  simp [process_keyboard_event, edgePressed, hfn, PlayState.clear_loops]

/-- C7 (witness): the amended theorem applied on the concrete state with an
active divider (−2) and a pending loop entry: the press clears the entry
and disables capture. -/
theorem c7_witness :
    process_keyboard_event
        (.Play { examplePlay with
          loop_divider := some (-2)
          loops := [{ offset := 0, period := 120, sound := 0 }] })
        { key := (2, 0), edge := .Rising } 0 =
      (.Play { examplePlay with
        fn_keys := listModify (fun k => { k with pressed := true }) 2
          examplePlay.fn_keys }, []) := by
  exact c7_clear_loops_guarded examplePlay.sounds examplePlay.sound_keys
    examplePlay.fn_keys examplePlay.quantize
    [{ offset := 0, period := 120, sound := 0 }] examplePlay.tick 0 (-2)
    (by decide)

/-- C9 (counterexample): the initial `Play` state installed by
`process_audio_event` on Catalog-Loaded has tick duration
`Duration::from_micros(1_000_000 / 60)` = 16666 µs = 16666/1000000 s,
which is not 1/60 s (the integer microsecond division truncates). -/
theorem c9_counterexample :
    appTick (process_audio_event (.Loading .DiscoveringAudio)
        (.LoadingEnd [])) = 16666 / 1000000 ∧
    appTick (process_audio_event (.Loading .DiscoveringAudio)
        (.LoadingEnd [])) ≠ 1 / 60 := by
  have h : appTick (process_audio_event (.Loading .DiscoveringAudio)
      (.LoadingEnd [])) = ((1000000 / 60 : Nat) : ℚ) / 1000000 := rfl
  rw [h]
  norm_num

/-- C9 (amended): on receipt of Catalog-Loaded the state becomes `Play`
with the delivered catalog, all 12 sound keys unbound and unpressed, all 4
function keys unpressed, no reassignment, empty loops, divider `None`,
quantize on, and tick duration 16666 µs (1/60 s truncated to whole
microseconds), which still reads back as 60 BPM. -/
theorem c9_initial_play_state (st : AppState) (sounds : List SoundInfo) :
    ∃ p, process_audio_event st (.LoadingEnd sounds) = .Play p ∧
      p.sounds = sounds ∧
      p.sound_keys.length = 3 ∧
      (∀ row ∈ p.sound_keys, row.length = 4 ∧
        ∀ k ∈ row, k.binding = none ∧ k.pressed = false) ∧
      p.fn_keys.length = 4 ∧
      (∀ k ∈ p.fn_keys, k.pressed = false) ∧
      p.reassign = none ∧ p.loops = [] ∧ p.loop_divider = none ∧
      p.quantize = true ∧
      p.tick = 16666 / 1000000 ∧ ⌊1 / p.tick⌋ = 60 := by
  refine ⟨_, rfl, rfl, rfl, ?_, rfl, ?_, rfl, rfl, rfl, rfl, ?_, ?_⟩
  · intro row hrow
    rw [List.eq_of_mem_replicate hrow]
    refine ⟨rfl, ?_⟩
    intro k hk
    rw [List.eq_of_mem_replicate hk]
    exact ⟨rfl, rfl⟩
  · intro k hk
    rw [List.eq_of_mem_replicate hk]
  · show ((1000000 / 60 : Nat) : ℚ) / 1000000 = 16666 / 1000000
    norm_num
  · show (⌊1 / (((1000000 / 60 : Nat) : ℚ) / 1000000)⌋ : Int) = 60
    norm_num

/-- C9 (witness): the amended theorem applied to the concrete catalog; the
installed tick is exactly 16666 µs. -/
theorem c9_witness :
    appTick (process_audio_event (.Loading .DiscoveringAudio)
        (.LoadingEnd exampleSounds)) * 1000000 = 16666 := by
  obtain ⟨p, hp, -, -, -, -, -, -, -, -, -, htick, -⟩ :=
    c9_initial_play_state (.Loading .DiscoveringAudio) exampleSounds
  rw [show appTick (process_audio_event (.Loading .DiscoveringAudio)
      (.LoadingEnd exampleSounds)) = p.tick from by rw [hp]; rfl, htick]
  norm_num

/-- Helper: `listModify` at an in-range index applies the function at that
index. -/
theorem listModify_getD_eq (f : α → α) (n : Nat) (l : List α) (d : α)
    (h : n < l.length) : (listModify f n l).getD n d = f (l.getD n d) := by
  induction l generalizing n with
  | nil => simp at h
  | cons a l ih =>
      match n with
      | 0 => rfl
      | n + 1 =>
          simp only [listModify, List.getD_cons_succ]
          exact ih n (by simpa using h)

/-- C10: in any Play state in reassignment, `reassign_sound_save`
unconditionally overwrites the target key's binding with the current
selection — including when the selection is `None`, which clears whatever
binding the key previously had — and destroys the `ReassignState`. -/
theorem c10_reassign_save_overwrites (s : PlayState) (rs : ReassignState)
    (x y : Nat) (hr : s.reassign = some rs) (hk : rs.key = (x, y))
    (hy1 : 1 ≤ y) (hy3 : y ≤ 3) (hx : x < 4)
    (hrows : s.sound_keys.length = 3)
    (hcols : (s.sound_keys.getD (y - 1) []).length = 4) :
    s.reassign_sound_save.reassign = none ∧
    (soundKeyAt s.reassign_sound_save x y).binding = rs.selection := by
  simp only [PlayState.reassign_sound_save, hr, hk,
    PlayState.reassign_sound_quit]
  constructor
  · trivial
  · show (((listModify
        (listModify (fun k => { k with binding := rs.selection }) x) (y - 1)
        s.sound_keys).getD (y - 1) []).getD x {}).binding = rs.selection
    rw [listModify_getD_eq _ _ _ _ (by omega),
      listModify_getD_eq _ _ _ _ (by omega)]

/-- C10 (witness): the theorem applied on the concrete reassignment state
targeting key (2, 1) — previously bound to sound 7 — with no selection:
saving clears the old binding (it becomes `None`, not `Some 7`) and leaves
reassignment. -/
theorem c10_witness :
    exampleReassignPlay.reassign_sound_save.reassign = none ∧
    (soundKeyAt exampleReassignPlay.reassign_sound_save 2 1).binding = none ∧
    (soundKeyAt exampleReassignPlay 2 1).binding = some 7 :=
  ⟨(c10_reassign_save_overwrites exampleReassignPlay
      { exampleReassign with key := (2, 1) } 2 1 rfl rfl (by decide) (by decide)
      (by decide) (by decide) (by decide)).1,
   (c10_reassign_save_overwrites exampleReassignPlay
      { exampleReassign with key := (2, 1) } 2 1 rfl rfl (by decide) (by decide)
      (by decide) (by decide) (by decide)).2,
   rfl⟩
